import Mathlib

/-!
Verification of the `chewie-crypto` JOSE abstraction layer.

This file shallowly embeds the crate's three subsystems:

* the JWK/JWKS wire-format codec (`src/jwk/mod.rs`), modelled at the level
  of an explicit JSON value type, with the serde-derived serializers and
  deserializers translated attribute by attribute;
* the secret-retrieval framework with its four byte decoders
  (`src/secrets/encoding.rs`) and the environment-variable provider
  (`src/secrets/providers.rs`);
* the guarded signing protocol (`src/signer/{async,sync,error}.rs`), with
  the asynchronous variant collapsed to explicit state passing (futures are
  values that are already resolved from the point of view of the pure
  semantics).

Machine bytes (`u8`) are modelled as `Nat` with explicit `< 256` bounds
where they matter; fallible Rust functions return `Except`.
-/

/-- A JSON value (the shape `serde_json` hands to the derived
deserializers).  Object fields are kept as an ordered association list; the
derived `serde` deserializers used by this crate look fields up by name and
ignore unknown fields. -/
inductive Json where
  | null
  | bool (b : Bool)
  | num (n : Int)
  | str (s : String)
  | arr (xs : List Json)
  | obj (fields : List (String × Json))

/-- First-occurrence field lookup in a JSON object, as the derived
deserializers see fields by name. -/
def getField : List (String × Json) → String → Option Json
  | [], _ => none
  | (k, v) :: rest, name => if k = name then some v else getField rest name

/-! ### Base64 (RFC 4648), shared core

Both the JWK codec (URL-safe alphabet, no padding — `BASE64_URL_SAFE_NO_PAD`)
and the secret framework (standard alphabet, canonical padding —
`base64::engine::general_purpose::STANDARD`) decode canonically: invalid
characters, a dangling single symbol, non-zero trailing bits, and wrong
padding are all rejected, matching the `base64` crate's default
`RequireCanonical` configuration. -/

/-- Value of a base64 symbol in the URL-safe alphabet (`A-Z a-z 0-9 - _`). -/
def b64urlVal (c : Char) : Option Nat :=
  if 'A' ≤ c ∧ c ≤ 'Z' then some (c.toNat - 65)
  else if 'a' ≤ c ∧ c ≤ 'z' then some (c.toNat - 97 + 26)
  else if '0' ≤ c ∧ c ≤ '9' then some (c.toNat - 48 + 52)
  else if c = '-' then some 62
  else if c = '_' then some 63
  else none

/-- Value of a base64 symbol in the standard alphabet (`A-Z a-z 0-9 + /`). -/
def b64stdVal (c : Char) : Option Nat :=
  if 'A' ≤ c ∧ c ≤ 'Z' then some (c.toNat - 65)
  else if 'a' ≤ c ∧ c ≤ 'z' then some (c.toNat - 97 + 26)
  else if '0' ≤ c ∧ c ≤ '9' then some (c.toNat - 48 + 52)
  else if c = '+' then some 62
  else if c = '/' then some 63
  else none

/-- Symbol for a 6-bit value in the URL-safe alphabet. -/
def b64urlChar (v : Nat) : Char :=
  if v < 26 then Char.ofNat (65 + v)
  else if v < 52 then Char.ofNat (97 + (v - 26))
  else if v < 62 then Char.ofNat (48 + (v - 52))
  else if v = 62 then '-'
  else '_'

/-- Encode bytes into unpadded base64 symbols (groups of three bytes give
four symbols; a final group of one or two bytes gives two or three symbols
with zero trailing bits). -/
def b64urlEncodeList : List Nat → List Char
  | [] => []
  | [b1] => [b64urlChar (b1 / 4), b64urlChar (b1 % 4 * 16)]
  | [b1, b2] =>
      [b64urlChar (b1 / 4), b64urlChar (b1 % 4 * 16 + b2 / 16),
       b64urlChar (b2 % 16 * 4)]
  | b1 :: b2 :: b3 :: rest =>
      b64urlChar (b1 / 4) :: b64urlChar (b1 % 4 * 16 + b2 / 16) ::
      b64urlChar (b2 % 16 * 4 + b3 / 64) :: b64urlChar (b3 % 64) ::
      b64urlEncodeList rest

/-- Canonical base64 decoding of unpadded symbols with the given alphabet:
four symbols yield three bytes; a final pair or triple yields one or two
bytes provided the trailing bits are zero; a dangling single symbol is
invalid. -/
def b64decodeList (val : Char → Option Nat) : List Char → Option (List Nat)
  | [] => some []
  | [_] => none
  | [c1, c2] => do
      let v1 ← val c1
      let v2 ← val c2
      if v2 % 16 = 0 then some [v1 * 4 + v2 / 16] else none
  | [c1, c2, c3] => do
      let v1 ← val c1
      let v2 ← val c2
      let v3 ← val c3
      if v3 % 4 = 0 then some [v1 * 4 + v2 / 16, v2 % 16 * 16 + v3 / 4]
      else none
  | c1 :: c2 :: c3 :: c4 :: rest => do
      let v1 ← val c1
      let v2 ← val c2
      let v3 ← val c3
      let v4 ← val c4
      let tail ← b64decodeList val rest
      some ((v1 * 4 + v2 / 16) :: (v2 % 16 * 16 + v3 / 4) ::
            (v3 % 4 * 64 + v4) :: tail)

/-- URL-safe unpadded base64 encoding (`BASE64_URL_SAFE_NO_PAD.encode`). -/
def b64urlEncode (bytes : List Nat) : String :=
  String.mk (b64urlEncodeList bytes)

/-- URL-safe unpadded base64 decoding (`BASE64_URL_SAFE_NO_PAD.decode`);
`=` is not in the alphabet, so padded input is rejected. -/
def b64urlDecode (s : String) : Option (List Nat) :=
  b64decodeList b64urlVal s.data

/-- Standard padded base64 decoding
(`base64::engine::general_purpose::STANDARD.decode`): canonical padding is
required, `=` may appear only as the final one or two symbols. -/
def b64stdDecode (chars : List Char) : Option (List Nat) :=
  let pads := (chars.reverse.takeWhile (· = '=')).length
  let core := (chars.reverse.dropWhile (· = '=')).reverse
  if core.any (· = '=') then none
  else if core.length % 4 = 0 ∧ pads = 0 then b64decodeList b64stdVal core
  else if core.length % 4 = 2 ∧ pads = 2 then b64decodeList b64stdVal core
  else if core.length % 4 = 3 ∧ pads = 1 then b64decodeList b64stdVal core
  else none

/-! ### UTF-8 and text helpers (Rust `std`) -/

/-- Is `b` a UTF-8 continuation byte (`0x80..=0xBF`)? -/
def isCont (b : Nat) : Bool := 0x80 ≤ b && b ≤ 0xBF

/-- Strict UTF-8 decoding as performed by `std::str::from_utf8`: rejects
invalid lead bytes, truncated sequences, overlong encodings, surrogate code
points and values above `0x10FFFF`. -/
def utf8Decode : List Nat → Option (List Char)
  | [] => some []
  | b :: bs =>
    if b ≤ 0x7F then
      (utf8Decode bs).map (Char.ofNat b :: ·)
    else if 0xC2 ≤ b ∧ b ≤ 0xDF then
      match bs with
      | b1 :: bs =>
        if isCont b1 then
          (utf8Decode bs).map (Char.ofNat ((b - 0xC0) * 0x40 + (b1 - 0x80)) :: ·)
        else none
      | [] => none
    else if 0xE0 ≤ b ∧ b ≤ 0xEF then
      match bs with
      | b1 :: b2 :: bs =>
        let lo1 := if b = 0xE0 then 0xA0 else 0x80
        let hi1 := if b = 0xED then 0x9F else 0xBF
        if lo1 ≤ b1 ∧ b1 ≤ hi1 ∧ isCont b2 then
          (utf8Decode bs).map
            (Char.ofNat ((b - 0xE0) * 0x1000 + (b1 - 0x80) * 0x40 + (b2 - 0x80)) :: ·)
        else none
      | _ => none
    else if 0xF0 ≤ b ∧ b ≤ 0xF4 then
      match bs with
      | b1 :: b2 :: b3 :: bs =>
        let lo1 := if b = 0xF0 then 0x90 else 0x80
        let hi1 := if b = 0xF4 then 0x8F else 0xBF
        if lo1 ≤ b1 ∧ b1 ≤ hi1 ∧ isCont b2 ∧ isCont b3 then
          (utf8Decode bs).map
            (Char.ofNat ((b - 0xF0) * 0x40000 + (b1 - 0x80) * 0x1000 +
                         (b2 - 0x80) * 0x40 + (b3 - 0x80)) :: ·)
        else none
      | _ => none
    else none

/-- UTF-8 encoding of one scalar value. -/
def utf8EncodeChar (c : Char) : List Nat :=
  let n := c.toNat
  if n ≤ 0x7F then [n]
  else if n ≤ 0x7FF then [0xC0 + n / 0x40, 0x80 + n % 0x40]
  else if n ≤ 0xFFFF then
    [0xE0 + n / 0x1000, 0x80 + n / 0x40 % 0x40, 0x80 + n % 0x40]
  else
    [0xF0 + n / 0x40000, 0x80 + n / 0x1000 % 0x40,
     0x80 + n / 0x40 % 0x40, 0x80 + n % 0x40]

/-- UTF-8 encoding of a string (`str::as_bytes`). -/
def utf8Encode (s : String) : List Nat :=
  s.data.foldr (fun c acc => utf8EncodeChar c ++ acc) []

/-- Rust `char::is_whitespace`: the Unicode `White_Space` code points. -/
def isRustWhitespace (c : Char) : Bool :=
  c.toNat ∈ [0x09, 0x0A, 0x0B, 0x0C, 0x0D, 0x20, 0x85, 0xA0, 0x1680,
    0x2000, 0x2001, 0x2002, 0x2003, 0x2004, 0x2005, 0x2006, 0x2007,
    0x2008, 0x2009, 0x200A, 0x2028, 0x2029, 0x202F, 0x205F, 0x3000]

/-- Rust `str::trim`: remove leading and trailing whitespace. -/
def rustTrim (s : String) : String :=
  String.mk (((s.data.dropWhile isRustWhitespace).reverse.dropWhile
    isRustWhitespace).reverse)

/-- Value of one hexadecimal digit, case-insensitive (`hex` crate). -/
def hexDigitVal (c : Char) : Option Nat :=
  if '0' ≤ c ∧ c ≤ '9' then some (c.toNat - 48)
  else if 'a' ≤ c ∧ c ≤ 'f' then some (c.toNat - 87)
  else if 'A' ≤ c ∧ c ≤ 'F' then some (c.toNat - 55)
  else none

/-- `hex::decode`: pairs of hex digits; odd length or a non-hex character is
an error. -/
def hexDecode : List Char → Option (List Nat)
  | [] => some []
  | [_] => none
  | c1 :: c2 :: rest => do
      let h ← hexDigitVal c1
      let l ← hexDigitVal c2
      let tail ← hexDecode rest
      some ((h * 16 + l) :: tail)

/-! ### JWK data model (`src/jwk/mod.rs`) -/

/-- Key use parameter (RFC 7517 §4.2); `Unknown` carries
`#[serde(skip, other)]`: any unrecognized value deserializes to it, and it
cannot be serialized. -/
inductive KeyUse where
  | Sign
  | Encrypt
  | Unknown
deriving DecidableEq

/-- Key operations parameter (RFC 7517 §4.3), `camelCase` on the wire;
`Unknown` carries `#[serde(skip, other)]`. -/
inductive KeyOperation where
  | Sign
  | Verify
  | Encrypt
  | Decrypt
  | WrapKey
  | UnwrapKey
  | DeriveKey
  | DeriveBits
  | Unknown
deriving DecidableEq

/-- An RSA public key: `n` and `e` are byte vectors carried on the wire via
the `base64url_uint` codec. -/
structure RsaPublicKey where
  n : List Nat
  e : List Nat
deriving DecidableEq

/-- An Elliptic Curve public key (RFC 7518 §6.2): `crv` is plain text,
`x`/`y` are byte vectors carried via the `base64url` codec. -/
structure EcPublicKey where
  crv : String
  x : List Nat
  y : List Nat
deriving DecidableEq

/-- An Octet Key Pair public key (RFC 8037 §2). -/
structure OkpPublicKey where
  crv : String
  x : List Nat
deriving DecidableEq

/-- The structurally varying part of a public key, internally tagged by
`kty` (`#[serde(tag = "kty")]`); `UnknownOrPrivate` carries
`#[serde(skip, other)]`: any unrecognized tag deserializes to it, and it
cannot be serialized. -/
inductive PublicKey where
  | Rsa (key : RsaPublicKey)
  | Ec (key : EcPublicKey)
  | Okp (key : OkpPublicKey)
  | UnknownOrPrivate
deriving DecidableEq

/-- A JSON Web Key (RFC 7517 §4).  The `key` field is `#[serde(flatten)]`ed;
the optional fields are skipped on serialization when `None`. -/
structure PublicJwk where
  key : PublicKey
  key_use : Option KeyUse
  key_operations : Option (List KeyOperation)
  algorithm : Option String
  kid : Option String
deriving DecidableEq

/-- A JSON Web Key Set (RFC 7517 §5). -/
structure PublicJwks where
  keys : List PublicJwk
deriving DecidableEq

/-! ### The `serde_utils` codecs

`src/jwk/mod.rs` declares `mod serde_utils` providing the `base64url` and
`base64url_uint` field codecs, but `serde_utils.rs` itself is not part of
the sources at hand, so the two codecs are modelled from the spec. -/

/-- Modelled from the spec (the body of `serde_utils::base64url_uint` is
missing from the sources): "strip any single leading zero byte used only
for sign disambiguation".  A leading zero serves only to disambiguate sign
exactly when the following byte has its high bit set. -/
def stripSignByte : List Nat → List Nat
  | 0 :: b :: rest => if 0x80 ≤ b then b :: rest else 0 :: b :: rest
  | l => l

/-- Modelled from the spec (the body of `serde_utils::base64url_uint` is
missing from the sources): serialize an integer field by stripping the sign
byte and base64url-encoding without padding. -/
def serB64Uint (bytes : List Nat) : Json :=
  .str (b64urlEncode (stripSignByte bytes))

/-- Modelled from the spec (the body of `serde_utils::base64url_uint` is
missing from the sources): deserialize an integer field from an unpadded
base64url string; "decoding must accept inputs with or without that leading
byte", so both forms decode to the same value. -/
def deB64Uint : Json → Except String (List Nat)
  | .str s =>
      match b64urlDecode s with
      | some bytes => .ok (stripSignByte bytes)
      | none => .error "invalid base64url"
  | _ => .error "invalid type: expected a base64url string"

/-- Modelled from the spec (the body of `serde_utils::base64url` is missing
from the sources): serialize a byte field as unpadded base64url. -/
def serB64 (bytes : List Nat) : Json :=
  .str (b64urlEncode bytes)

/-- Modelled from the spec (the body of `serde_utils::base64url` is missing
from the sources): deserialize a byte field from an unpadded base64url
string. -/
def deB64 : Json → Except String (List Nat)
  | .str s =>
      match b64urlDecode s with
      | some bytes => .ok bytes
      | none => .error "invalid base64url"
  | _ => .error "invalid type: expected a base64url string"

/-! ### Derived deserializers (`serde::Deserialize` on the JWK types)

Duplicate object fields — which cannot arise from a `serde_json::Value` and
are immaterial to every property below — are resolved to the first
occurrence rather than a dedicated duplicate-field error. -/

/-- `KeyUse::deserialize`: the renamed unit variants `sig`/`enc`; any other
string is the `#[serde(other)]` fallback `Unknown`; a non-string is a type
error. -/
def deserializeKeyUse : Json → Except String KeyUse
  | .str s =>
      .ok (if s = "sig" then .Sign else if s = "enc" then .Encrypt else .Unknown)
  | _ => .error "invalid type for key use"

/-- `KeyOperation::deserialize`: `camelCase` unit variants with the
`#[serde(other)]` fallback `Unknown`; a non-string is a type error. -/
def deserializeKeyOperation : Json → Except String KeyOperation
  | .str s =>
      .ok (if s = "sign" then .Sign
        else if s = "verify" then .Verify
        else if s = "encrypt" then .Encrypt
        else if s = "decrypt" then .Decrypt
        else if s = "wrapKey" then .WrapKey
        else if s = "unwrapKey" then .UnwrapKey
        else if s = "deriveKey" then .DeriveKey
        else if s = "deriveBits" then .DeriveBits
        else .Unknown)
  | _ => .error "invalid type for key operation"

/-- A required field deserialized through `base64url_uint`; absence is the
derived missing-field error. -/
def requireB64Uint (fields : List (String × Json)) (name : String) :
    Except String (List Nat) :=
  match getField fields name with
  | some v => deB64Uint v
  | none => .error ("missing field " ++ name)

/-- A required field deserialized through `base64url`; absence is the
derived missing-field error. -/
def requireB64 (fields : List (String × Json)) (name : String) :
    Except String (List Nat) :=
  match getField fields name with
  | some v => deB64 v
  | none => .error ("missing field " ++ name)

/-- A required plain string field; absence is the derived missing-field
error, a non-string value the derived type error. -/
def requireStr (fields : List (String × Json)) (name : String) :
    Except String String :=
  match getField fields name with
  | some (.str s) => .ok s
  | some _ => .error ("invalid type for field " ++ name)
  | none => .error ("missing field " ++ name)

/-- `RsaPublicKey::deserialize` over the flattened field map: `n` and `e`
are required and go through `base64url_uint`; unknown fields are ignored. -/
def deserializeRsa (fields : List (String × Json)) :
    Except String RsaPublicKey := do
  let n ← requireB64Uint fields "n"
  let e ← requireB64Uint fields "e"
  .ok { n := n, e := e }

/-- `EcPublicKey::deserialize` over the flattened field map: `crv` is a
required string, `x` and `y` are required and go through `base64url`. -/
def deserializeEc (fields : List (String × Json)) :
    Except String EcPublicKey := do
  let crv ← requireStr fields "crv"
  let x ← requireB64 fields "x"
  let y ← requireB64 fields "y"
  .ok { crv := crv, x := x, y := y }

/-- `OkpPublicKey::deserialize` over the flattened field map: `crv` is a
required string, `x` is required and goes through `base64url`. -/
def deserializeOkp (fields : List (String × Json)) :
    Except String OkpPublicKey := do
  let crv ← requireStr fields "crv"
  let x ← requireB64 fields "x"
  .ok { crv := crv, x := x }

/-- `PublicKey::deserialize`: internally tagged by `kty`; a recognized tag
selects its variant deserializer, any other string tag is the
`#[serde(other)]` fallback `UnknownOrPrivate`; a missing or non-string tag
is an error. -/
def deserializePublicKey (fields : List (String × Json)) :
    Except String PublicKey :=
  match getField fields "kty" with
  | some (.str s) =>
      if s = "RSA" then (deserializeRsa fields).map .Rsa
      else if s = "EC" then (deserializeEc fields).map .Ec
      else if s = "OKP" then (deserializeOkp fields).map .Okp
      else .ok .UnknownOrPrivate
  | some _ => .error "invalid type for field kty"
  | none => .error "missing field kty"

/-- Deserialize one optional (`Option`-typed) field: absent or `null` is
`none`, anything else goes through the payload deserializer. -/
def deserializeOptField (fields : List (String × Json)) (name : String)
    (p : Json → Except String α) : Except String (Option α) :=
  match getField fields name with
  | none => .ok none
  | some .null => .ok none
  | some v => (p v).map some

/-- The `key_ops` payload: an array of operations. -/
def deserializeKeyOps : Json → Except String (List KeyOperation)
  | .arr xs => xs.mapM deserializeKeyOperation
  | _ => .error "invalid type for field key_ops"

/-- A plain string payload (for the free-text `alg` and `kid` fields). -/
def deserializeStrField (name : String) : Json → Except String String
  | .str s => .ok s
  | _ => .error ("invalid type for field " ++ name)

/-- `PublicJwk::deserialize`: the named fields `use`, `key_ops`, `alg` and
`kid` are optional; every remaining field is handed to the flattened
`PublicKey` deserializer. -/
def deserializePublicJwk : Json → Except String PublicJwk
  | .obj fields => do
      let key_use ← deserializeOptField fields "use" deserializeKeyUse
      let key_operations ← deserializeOptField fields "key_ops"
        deserializeKeyOps
      let algorithm ← deserializeOptField fields "alg"
        (deserializeStrField "alg")
      let kid ← deserializeOptField fields "kid" (deserializeStrField "kid")
      let rest := fields.filter
        (fun p => p.1 ∉ (["use", "key_ops", "alg", "kid"] : List String))
      let key ← deserializePublicKey rest
      .ok { key := key, key_use := key_use, key_operations := key_operations,
            algorithm := algorithm, kid := kid }
  | _ => .error "invalid type: expected a JWK object"

/-- `PublicJwks::deserialize`: an object whose required `keys` field is an
array of JWKs; unknown fields are ignored. -/
def deserializePublicJwks : Json → Except String PublicJwks
  | .obj fields =>
      match getField fields "keys" with
      | some (.arr xs) => (xs.mapM deserializePublicJwk).map PublicJwks.mk
      | some _ => .error "invalid type for field keys"
      | none => .error "missing field keys"
  | _ => .error "invalid type: expected a JWKS object"

/-! ### Derived serializers (`serde::Serialize` on the JWK types) -/

/-- `KeyUse::serialize`: `#[serde(skip)]` makes the `Unknown` variant
unserializable. -/
def serializeKeyUse : KeyUse → Except String Json
  | .Sign => .ok (.str "sig")
  | .Encrypt => .ok (.str "enc")
  | .Unknown => .error "the enum variant KeyUse::Unknown cannot be serialized"

/-- `KeyOperation::serialize`: `#[serde(skip)]` makes the `Unknown` variant
unserializable. -/
def serializeKeyOperation : KeyOperation → Except String Json
  | .Sign => .ok (.str "sign")
  | .Verify => .ok (.str "verify")
  | .Encrypt => .ok (.str "encrypt")
  | .Decrypt => .ok (.str "decrypt")
  | .WrapKey => .ok (.str "wrapKey")
  | .UnwrapKey => .ok (.str "unwrapKey")
  | .DeriveKey => .ok (.str "deriveKey")
  | .DeriveBits => .ok (.str "deriveBits")
  | .Unknown =>
      .error "the enum variant KeyOperation::Unknown cannot be serialized"

/-- `PublicKey::serialize` as the flattened field list: the `kty` tag
followed by the variant's own fields; `#[serde(skip)]` makes
`UnknownOrPrivate` unserializable. -/
def serializePublicKeyFields : PublicKey → Except String (List (String × Json))
  | .Rsa k => .ok [("kty", .str "RSA"), ("n", serB64Uint k.n), ("e", serB64Uint k.e)]
  | .Ec k =>
      .ok [("kty", .str "EC"), ("crv", .str k.crv), ("x", serB64 k.x),
           ("y", serB64 k.y)]
  | .Okp k => .ok [("kty", .str "OKP"), ("crv", .str k.crv), ("x", serB64 k.x)]
  | .UnknownOrPrivate =>
      .error "the enum variant PublicKey::UnknownOrPrivate cannot be serialized"

/-- The serialized `use` segment: absent when `None`
(`#[serde(skip_serializing_if = "Option::is_none")]`). -/
def serializeUseField : Option KeyUse → Except String (List (String × Json))
  | none => .ok []
  | some u => (serializeKeyUse u).map (fun j => [("use", j)])

/-- The serialized `key_ops` segment: absent when `None`. -/
def serializeKeyOpsField :
    Option (List KeyOperation) → Except String (List (String × Json))
  | none => .ok []
  | some ops =>
      (ops.mapM serializeKeyOperation).map (fun js => [("key_ops", .arr js)])

/-- The serialized `alg` segment: absent when `None`. -/
def serializeAlgField : Option String → List (String × Json)
  | none => []
  | some a => [("alg", .str a)]

/-- The serialized `kid` segment: absent when `None`. -/
def serializeKidField : Option String → List (String × Json)
  | none => []
  | some k => [("kid", .str k)]

/-- `PublicJwk::serialize`: the flattened key fields followed by the
optional fields, each skipped when `None`. -/
def serializePublicJwk (jwk : PublicJwk) : Except String Json := do
  let keyFields ← serializePublicKeyFields jwk.key
  let useF ← serializeUseField jwk.key_use
  let opsF ← serializeKeyOpsField jwk.key_operations
  .ok (.obj (keyFields ++ useF ++ opsF ++ serializeAlgField jwk.algorithm
    ++ serializeKidField jwk.kid))

/-- `PublicJwks::serialize`. -/
def serializePublicJwks (jwks : PublicJwks) : Except String Json :=
  (jwks.keys.mapM serializePublicJwk).map (fun js => .obj [("keys", .arr js)])

/-- Is an `Except` outcome an error? -/
def isErr : Except ε α → Bool
  | .error _ => true
  | .ok _ => false

/-! ### Secret decoders (`src/secrets/encoding.rs`) -/

/-- Error when decoding a secret (`EncodingError`; the wrapped foreign
source errors carry no further structure used by the crate). -/
inductive EncodingError where
  | InvalidUtf8
  | InvalidHex
  | InvalidBase64
deriving DecidableEq

/-- The output of a built-in secret decoder: a memory-scrubbed string
(`SecretString`) or memory-scrubbed bytes (`SecretBox<[u8]>`). -/
inductive SecretValue where
  | text (s : String)
  | bytes (bs : List Nat)
deriving DecidableEq

namespace StringEncoding

/-- `StringEncoding::decode`: require UTF-8, trim surrounding whitespace,
yield a `SecretString`. -/
def decode (input : List Nat) : Except EncodingError SecretValue :=
  match utf8Decode input with
  | some cs => .ok (.text (rustTrim (String.mk cs)))
  | none => .error .InvalidUtf8

end StringEncoding

namespace BinaryEncoding

/-- `BinaryEncoding::decode`: bytes pass through as-is into a
`SecretBox<[u8]>`. -/
def decode (input : List Nat) : Except EncodingError SecretValue :=
  .ok (.bytes input)

end BinaryEncoding

namespace HexEncoding

/-- `HexEncoding::decode`: require UTF-8, trim, then hex-decode
(case-insensitive). -/
def decode (input : List Nat) : Except EncodingError SecretValue :=
  match utf8Decode input with
  | some cs =>
      match hexDecode (rustTrim (String.mk cs)).data with
      | some bs => .ok (.bytes bs)
      | none => .error .InvalidHex
  | none => .error .InvalidUtf8

end HexEncoding

namespace Base64Encoding

/-- `Base64Encoding::decode`: require UTF-8, trim, then decode standard
padded base64. -/
def decode (input : List Nat) : Except EncodingError SecretValue :=
  match utf8Decode input with
  | some cs =>
      match b64stdDecode (rustTrim (String.mk cs)).data with
      | some bs => .ok (.bytes bs)
      | none => .error .InvalidBase64
  | none => .error .InvalidUtf8

end Base64Encoding

/-! ### Built-in secret providers (`src/secrets/providers.rs`)

`SecretSource::get_secret` is `async`, but the only effect it performs is
the environment lookup; the process environment is passed explicitly and
the future is collapsed to its resolved value. -/

/-- `std::env::VarError`. -/
inductive VarError where
  | NotPresent
  | NotUnicode
deriving DecidableEq

/-- One environment variable as `std::env::var` can observe it: absent, not
valid unicode, or present with a text value. -/
inductive EnvValue where
  | absent
  | notUnicode
  | present (value : String)

/-- `SecretSourceError`: the error type of the built-in providers. -/
inductive SecretSourceError where
  | EnvAccess (var_name : String) (source : VarError)
  | Decode (source : EncodingError)
deriving DecidableEq

/-- `EnvVarSecretSource<E>`: a named environment variable plus the decoder
applied to its value.  The decoder (the `SecretEncoding` implementation) is
carried as its `decode` function, generic in its output type. -/
structure EnvVarSecretSource (α : Type) where
  var_name : String
  encoding : List Nat → Except EncodingError α

/-- `EnvVarSecretSource::new`. -/
def EnvVarSecretSource.new (var_name : String)
    (encoding : List Nat → Except EncodingError α) : EnvVarSecretSource α :=
  { var_name := var_name, encoding := encoding }

/-- `EnvVarSecretSource::string`: the provider with the default decoder,
`StringEncoding` (also the `E = StringEncoding` default type parameter). -/
def EnvVarSecretSource.string (var_name : String) :
    EnvVarSecretSource SecretValue :=
  EnvVarSecretSource.new var_name StringEncoding.decode

/-- `EnvVarSecretSource::get_secret`: look the variable up, mapping a
lookup failure to `EnvAccess`; decode the value's bytes with the configured
decoder, mapping a decoder failure to `Decode`. -/
def EnvVarSecretSource.get_secret (self : EnvVarSecretSource α)
    (env : String → EnvValue) : Except SecretSourceError α :=
  match env self.var_name with
  | .absent => .error (.EnvAccess self.var_name .NotPresent)
  | .notUnicode => .error (.EnvAccess self.var_name .NotUnicode)
  | .present value =>
      match self.encoding (utf8Encode value) with
      | .ok out => .ok out
      | .error e => .error (.Decode e)

/-! ### Signer protocol (`src/signer/`)

A signer implementation is a record of its metadata accessors together with
its unguarded signing primitive.  The primitive may perform effects (key
store I/O); those are modelled by explicit state passing over an arbitrary
state type `σ`, and the `async` variant's future is collapsed to its
resolved value (`§5` of the spec: suspension may occur only inside
`sign_unchecked` itself). -/

/-- `signer::Error`: the error type returned by guarded signing, generic
over the implementation's own error type. -/
inductive SignerError (E : Type) where
  | MismatchedKeyInfo
  | UnderlyingError (source : E)
deriving DecidableEq

/-- `SignedBytes` (`src/signer/mod.rs`): a signature together with the JWS
`alg` and `kid` metadata that produced it. -/
structure SignedBytes where
  signature : List Nat
  jws_algorithm : String
  key_id : Option String
deriving DecidableEq

/-- An implementation of the blocking `JwsSignerSync` trait. -/
structure JwsSignerSync (σ E : Type) where
  algorithm : String
  jws_algorithm : String
  key_id : Option String
  sign_unchecked : List Nat → σ → Except E (List Nat) × σ

/-- An implementation of the suspending `JwsSigner` trait (futures
collapsed to resolved values). -/
structure JwsSigner (σ E : Type) where
  algorithm : String
  jws_algorithm : String
  key_id : Option String
  sign_unchecked : List Nat → σ → Except E (List Nat) × σ

/-- `JwsSignerSync::sign_sync` (default method, `src/signer/sync.rs`):
check the expected metadata against the signer's current metadata; on
mismatch fail with `MismatchedKeyInfo` without touching `sign_unchecked`;
on match run `sign_unchecked`, wrapping its error as `UnderlyingError`. -/
def JwsSignerSync.sign_sync (self : JwsSignerSync σ E) (input : List Nat)
    (jws_algorithm : String) (key_id : Option String) (st : σ) :
    Except (SignerError E) (List Nat) × σ :=
  if jws_algorithm ≠ self.jws_algorithm ∨ key_id ≠ self.key_id then
    (.error .MismatchedKeyInfo, st)
  else
    match self.sign_unchecked input st with
    | (.ok sig, st') => (.ok sig, st')
    | (.error e, st') => (.error (.UnderlyingError e), st')

/-- `JwsSigner::sign` (default method, `src/signer/async.rs`): the same
guard and wrapping as `sign_sync`, inside `async move`. -/
def JwsSigner.sign (self : JwsSigner σ E) (input : List Nat)
    (jws_algorithm : String) (key_id : Option String) (st : σ) :
    Except (SignerError E) (List Nat) × σ :=
  if jws_algorithm ≠ self.jws_algorithm ∨ key_id ≠ self.key_id then
    (.error .MismatchedKeyInfo, st)
  else
    match self.sign_unchecked input st with
    | (.ok sig, st') => (.ok sig, st')
    | (.error e, st') => (.error (.UnderlyingError e), st')

/-- The blanket `impl<Sgn: JwsSignerSync> JwsSigner for Sgn`
(`src/signer/sync.rs`): every accessor delegates to the blocking one and
`sign_unchecked` is the blocking primitive wrapped in
`std::future::ready`; the guarded `sign` is not overridden, so it is the
trait's default. -/
def JwsSignerSync.toJwsSigner (self : JwsSignerSync σ E) : JwsSigner σ E :=
  { algorithm := self.algorithm
    jws_algorithm := self.jws_algorithm
    key_id := self.key_id
    sign_unchecked := self.sign_unchecked }

deriving instance DecidableEq for Except

/-! ### Concrete signer implementations used as witnesses (mirroring the
`MockSigner` of the crate's own tests, with a state counter recording how
often the primitive ran) -/

/-- A blocking signer whose primitive succeeds with `[9]` and bumps the
invocation counter. -/
def mockSignerSync : JwsSignerSync Nat String :=
  { algorithm := "ALG"
    jws_algorithm := "JWS-ALG"
    key_id := none
    sign_unchecked := fun _ st => (.ok [9], st + 1) }

/-- A blocking signer whose primitive fails with `"boom"`. -/
def mockSignerErr : JwsSignerSync Nat String :=
  { algorithm := "ALG"
    jws_algorithm := "JWS-ALG"
    key_id := none
    sign_unchecked := fun _ st => (.error "boom", st + 1) }

/-- A suspending signer whose primitive succeeds with `[9]` and bumps the
invocation counter. -/
def mockSigner : JwsSigner Nat String :=
  { algorithm := "ALG"
    jws_algorithm := "JWS-ALG"
    key_id := none
    sign_unchecked := fun _ st => (.ok [9], st + 1) }

/-- C1: for every signer implementation and every input, when the expected
JWS algorithm or key id differs from the signer's current metadata, the
guarded sign fails with `MismatchedKeyInfo`, the state is untouched, and
the outcome does not depend on the `sign_unchecked` primitive at all
(replacing the primitive by any other function gives the same outcome) —
for both the blocking `JwsSignerSync::sign_sync` and the suspending
`JwsSigner::sign`. -/
theorem sign_mismatch_fails_without_primitive {σ E : Type}
    (s : JwsSignerSync σ E) (a : JwsSigner σ E)
    (f g : List Nat → σ → Except E (List Nat) × σ)
    (input : List Nat) (alg : String) (kid : Option String) (st : σ)
    (hs : alg ≠ s.jws_algorithm ∨ kid ≠ s.key_id)
    (ha : alg ≠ a.jws_algorithm ∨ kid ≠ a.key_id) :
    s.sign_sync input alg kid st = (.error .MismatchedKeyInfo, st)
    ∧ ({ s with sign_unchecked := f }).sign_sync input alg kid st
        = (.error .MismatchedKeyInfo, st)
    ∧ a.sign input alg kid st = (.error .MismatchedKeyInfo, st)
    ∧ ({ a with sign_unchecked := g }).sign input alg kid st
        = (.error .MismatchedKeyInfo, st) := by
  refine ⟨?_, ?_, ?_, ?_⟩ <;>
    simp only [JwsSignerSync.sign_sync, JwsSigner.sign] <;>
    rw [if_pos] <;> first
      | exact hs
      | exact ha

/-- Witness for C1 at a concrete signer: a mismatched algorithm and a
mismatched key id both fail without running the primitive. -/
theorem sign_mismatch_fails_without_primitive_witness :
    mockSignerSync.sign_sync [1] "JWS-ALG2" none 0
      = (.error .MismatchedKeyInfo, 0)
    ∧ ({ mockSignerSync with
          sign_unchecked := fun _ st => (.error "other", st) }).sign_sync
        [1] "JWS-ALG2" none 0 = (.error .MismatchedKeyInfo, 0)
    ∧ mockSigner.sign [1] "JWS-ALG2" none 0 = (.error .MismatchedKeyInfo, 0)
    ∧ ({ mockSigner with
          sign_unchecked := fun _ st => (.error "other", st) }).sign
        [1] "JWS-ALG2" none 0 = (.error .MismatchedKeyInfo, 0) :=
  sign_mismatch_fails_without_primitive mockSignerSync mockSigner
    (fun _ st => (.error "other", st)) (fun _ st => (.error "other", st))
    [1] "JWS-ALG2" none 0 (.inl (by decide)) (.inl (by decide))

/-- C2 (code bug): when the expected metadata matches, the guarded sign
does invoke `sign_unchecked` (the state counter moves from 0 to 1) and does
wrap the primitive's error as `UnderlyingError`; but on success it returns
the signature bytes alone (`Bytes`), not the `SignedBytes` result combining
the signature with the just-verified `jws_algorithm`/`key_id` metadata that
both the spec and the crate's own doc comments ("returns the signature with
metadata", and the unused `SignedBytes` type) describe. -/
theorem sign_match_returns_bare_bytes :
    mockSignerSync.sign_sync [1, 2] "JWS-ALG" none 0 = (.ok [9], 1)
    ∧ mockSignerErr.sign_sync [1, 2] "JWS-ALG" none 0
        = (.error (.UnderlyingError "boom"), 1)
    ∧ mockSigner.sign [1, 2] "JWS-ALG" none 0 = (.ok [9], 1) := by
  refine ⟨?_, ?_, ?_⟩ <;> rfl

/-- C3: invoking any blocking implementation through the blanket
`impl JwsSigner for Sgn` bridge yields an outcome identical to calling
`sign_sync` directly, and the bridge neither wraps the primitive in a
second guard (its `sign_unchecked` is the blocking primitive itself,
resolved immediately) nor alters the metadata the single guard inspects. -/
theorem bridge_sign_equals_sign_sync {σ E : Type} (s : JwsSignerSync σ E)
    (input : List Nat) (alg : String) (kid : Option String) (st : σ) :
    s.toJwsSigner.sign input alg kid st = s.sign_sync input alg kid st
    ∧ s.toJwsSigner.sign_unchecked = s.sign_unchecked
    ∧ s.toJwsSigner.jws_algorithm = s.jws_algorithm
    ∧ s.toJwsSigner.key_id = s.key_id :=
  ⟨rfl, rfl, rfl, rfl⟩

/-- C8: the four built-in secret decoders: text decoding requires UTF-8
(failing with `InvalidUtf8` otherwise) and trims surrounding whitespace, so
"  hello  \n" gives "hello" and `[0xFF, 0xFE]` fails; hex decoding of
"deadbeef" gives `[0xDE, 0xAD, 0xBE, 0xEF]`; standard padded base64
decoding of "SGVsbG8gV29ybGQ=" gives the bytes of "Hello World"; binary
decoding is the identity on any input and never fails. -/
theorem builtin_decoders_behave :
    StringEncoding.decode (utf8Encode "  hello  \n") = .ok (.text "hello")
    ∧ StringEncoding.decode [0xFF, 0xFE] = .error .InvalidUtf8
    ∧ (∀ bytes cs, utf8Decode bytes = some cs →
        StringEncoding.decode bytes = .ok (.text (rustTrim (String.mk cs))))
    ∧ (∀ bytes, utf8Decode bytes = none →
        StringEncoding.decode bytes = .error .InvalidUtf8)
    ∧ HexEncoding.decode (utf8Encode "deadbeef")
        = .ok (.bytes [0xDE, 0xAD, 0xBE, 0xEF])
    ∧ Base64Encoding.decode (utf8Encode "SGVsbG8gV29ybGQ=")
        = .ok (.bytes (utf8Encode "Hello World"))
    ∧ ∀ bytes, BinaryEncoding.decode bytes = .ok (.bytes bytes) := by
  refine ⟨by decide, by decide, ?_, ?_, by decide, by decide, fun _ => rfl⟩
  · intro bytes cs h
    simp [StringEncoding.decode, h]
  · intro bytes h
    simp [StringEncoding.decode, h]

/-- Witness for C8's universally quantified text-decoder clauses at
concrete inputs. -/
theorem builtin_decoders_behave_witness :
    StringEncoding.decode (utf8Encode "a")
      = .ok (.text (rustTrim (String.mk ['a'])))
    ∧ StringEncoding.decode [0xFF] = .error .InvalidUtf8 :=
  ⟨builtin_decoders_behave.2.2.1 (utf8Encode "a") ['a'] (by decide),
   builtin_decoders_behave.2.2.2.1 [0xFF] (by decide)⟩

/-- C9: the environment-variable provider fails with `EnvAccess` when the
variable is absent or not valid text; otherwise it hands the value's bytes
to its decoder, passing a success through and wrapping a decoder failure as
`Decode`; and the provider's default decoder (`EnvVarSecretSource::string`,
also the `E = StringEncoding` default type parameter) is the text
decoder. -/
theorem env_provider_behaviour {α : Type} (env : String → EnvValue)
    (name : String) (dec : List Nat → Except EncodingError α) :
    (env name = .absent →
      (EnvVarSecretSource.new name dec).get_secret env
        = .error (.EnvAccess name .NotPresent))
    ∧ (env name = .notUnicode →
      (EnvVarSecretSource.new name dec).get_secret env
        = .error (.EnvAccess name .NotUnicode))
    ∧ (∀ v out, env name = .present v → dec (utf8Encode v) = .ok out →
      (EnvVarSecretSource.new name dec).get_secret env = .ok out)
    ∧ (∀ v e, env name = .present v → dec (utf8Encode v) = .error e →
      (EnvVarSecretSource.new name dec).get_secret env
        = .error (.Decode e))
    ∧ (EnvVarSecretSource.string name).encoding = StringEncoding.decode := by
  refine ⟨?_, ?_, ?_, ?_, rfl⟩
  · intro h
    simp [EnvVarSecretSource.get_secret, EnvVarSecretSource.new, h]
  · intro h
    simp [EnvVarSecretSource.get_secret, EnvVarSecretSource.new, h]
  · intro v out h hdec
    simp [EnvVarSecretSource.get_secret, EnvVarSecretSource.new, h, hdec]
  · intro v e h hdec
    simp [EnvVarSecretSource.get_secret, EnvVarSecretSource.new, h, hdec]

/-- Witness for C9 at concrete environments: an absent variable, a
non-unicode variable, a present variable whose text decodes, and a present
variable whose hex content is malformed. -/
theorem env_provider_behaviour_witness :
    (EnvVarSecretSource.new "T" StringEncoding.decode).get_secret
        (fun _ => .absent) = .error (.EnvAccess "T" .NotPresent)
    ∧ (EnvVarSecretSource.new "T" StringEncoding.decode).get_secret
        (fun _ => .notUnicode) = .error (.EnvAccess "T" .NotUnicode)
    ∧ (EnvVarSecretSource.new "S" StringEncoding.decode).get_secret
        (fun _ => .present "  hello  ") = .ok (.text "hello")
    ∧ (EnvVarSecretSource.new "H" HexEncoding.decode).get_secret
        (fun _ => .present "zz") = .error (.Decode .InvalidHex) :=
  ⟨(env_provider_behaviour (fun _ => .absent) "T" StringEncoding.decode).1 rfl,
   (env_provider_behaviour (fun _ => .notUnicode) "T"
      StringEncoding.decode).2.1 rfl,
   (env_provider_behaviour (fun _ => .present "  hello  ") "S"
      StringEncoding.decode).2.2.1 "  hello  " (.text "hello") rfl (by decide),
   (env_provider_behaviour (fun _ => .present "zz") "H"
      HexEncoding.decode).2.2.2.1 "zz" .InvalidHex rfl (by decide)⟩

/-- An error on the left of a bind makes the whole `Except` computation an
error. -/
theorem isErr_bind {x : Except ε α} {f : α → Except ε β} (h : isErr x = true) :
    isErr (x >>= f) = true := by
  cases x with
  | error e => rfl
  | ok a => cases h

/-- A `key_ops` list containing the `Unknown` operation cannot be
serialized. -/
theorem mapM_serializeKeyOperation_err {ops : List KeyOperation}
    (h : .Unknown ∈ ops) : isErr (ops.mapM serializeKeyOperation) = true := by
  induction ops with
  | nil => cases h
  | cons op rest ih =>
    rw [List.mapM_cons]
    rcases List.mem_cons.mp h with h1 | h2
    · subst h1
      rfl
    · cases hop : serializeKeyOperation op with
      | error e => simp [hop, isErr, Bind.bind, Except.bind]
      | ok j =>
        have hrest := ih h2
        cases hr : rest.mapM serializeKeyOperation with
        | error e =>
            simp [hop, hr, isErr, Bind.bind, Except.bind, Except.map]
        | ok js => rw [hr] at hrest; cases hrest

/-- C10: a key-set entry whose `use` is `Unknown`, whose `key_ops` list
contains `Unknown`, or whose key material is `UnknownOrPrivate` cannot be
serialized (`#[serde(skip)]` excludes these variants), so the
encode-then-decode round trip is only available to entries whose enumerated
fields are all known variants, and a parsed document containing such values
cannot be re-encoded. -/
theorem serialize_rejects_unknown_variants (jwk : PublicJwk) :
    (jwk.key_use = some .Unknown → isErr (serializePublicJwk jwk) = true)
    ∧ (∀ ops, jwk.key_operations = some ops → .Unknown ∈ ops →
        isErr (serializePublicJwk jwk) = true)
    ∧ (jwk.key = .UnknownOrPrivate → isErr (serializePublicJwk jwk) = true) := by
  refine ⟨?_, ?_, ?_⟩
  · intro h
    cases hk : serializePublicKeyFields jwk.key with
    | error e => simp [serializePublicJwk, hk, isErr, Bind.bind, Except.bind]
    | ok kf =>
        simp [serializePublicJwk, hk, h, serializeUseField, serializeKeyUse,
          isErr, Bind.bind, Except.bind, Except.map]
  · intro ops hops hmem
    cases hk : serializePublicKeyFields jwk.key with
    | error e => simp [serializePublicJwk, hk, isErr, Bind.bind, Except.bind]
    | ok kf =>
        have herr := mapM_serializeKeyOperation_err hmem
        cases hu : serializeUseField jwk.key_use with
        | error e =>
            simp [serializePublicJwk, hk, hu, isErr, Bind.bind, Except.bind]
        | ok useF =>
            cases hm : ops.mapM serializeKeyOperation with
            | error e =>
                simp only [serializePublicJwk, hk, hu, hops, Bind.bind,
                  Except.bind, serializeKeyOpsField]
                rw [hm]
                rfl
            | ok js => rw [hm] at herr; cases herr
  · intro h
    simp [serializePublicJwk, h, serializePublicKeyFields, isErr, Bind.bind,
      Except.bind]

/-- Witness for C10 at a concrete entry carrying all three unknown
markers. -/
theorem serialize_rejects_unknown_variants_witness :
    isErr (serializePublicJwk
      { key := .UnknownOrPrivate, key_use := some .Unknown,
        key_operations := some [.Sign, .Unknown], algorithm := none,
        kid := none }) = true :=
  (serialize_rejects_unknown_variants
    { key := .UnknownOrPrivate, key_use := some .Unknown,
      key_operations := some [.Sign, .Unknown], algorithm := none,
      kid := none }).2.2 rfl

/-- C4 (amended): forward-compatible parsing.  A `kty` tag outside
{RSA, EC, OKP} parses successfully to `UnknownOrPrivate`; `use` and
`key_ops` string values outside their known enumerations parse successfully
to the opaque `Unknown` marker; a `crv` value outside any known curve set
also parses successfully — but into the entry's plain-text `crv` field with
the raw value preserved, not an opaque/Unknown marker. -/
theorem forward_compatible_parsing (fields : List (String × Json))
    (s : String) :
    (getField fields "kty" = some (.str s) →
      s ≠ "RSA" → s ≠ "EC" → s ≠ "OKP" →
      deserializePublicKey fields = .ok .UnknownOrPrivate)
    ∧ (s ≠ "sig" → s ≠ "enc" → deserializeKeyUse (.str s) = .ok .Unknown)
    ∧ (s ∉ (["sign", "verify", "encrypt", "decrypt", "wrapKey", "unwrapKey",
        "deriveKey", "deriveBits"] : List String) →
        deserializeKeyOperation (.str s) = .ok .Unknown)
    ∧ (∀ sx sy x y, getField fields "crv" = some (.str s) →
        getField fields "x" = some (.str sx) → b64urlDecode sx = some x →
        getField fields "y" = some (.str sy) → b64urlDecode sy = some y →
        deserializeEc fields = .ok { crv := s, x := x, y := y }) := by
  refine ⟨?_, ?_, ?_, ?_⟩
  · intro h h1 h2 h3
    simp [deserializePublicKey, h, h1, h2, h3]
  · intro h1 h2
    simp [deserializeKeyUse, h1, h2]
  · intro h
    simp only [List.mem_cons, List.not_mem_nil, or_false, not_or] at h
    obtain ⟨h1, h2, h3, h4, h5, h6, h7, h8⟩ := h
    simp [deserializeKeyOperation, h1, h2, h3, h4, h5, h6, h7, h8]
  · intro sx sy x y hcrv hx hdx hy hdy
    simp [deserializeEc, requireStr, requireB64, hcrv, hx, hy, deB64, hdx,
      hdy, Bind.bind, Except.bind]

/-- Witness for C4's amended statement at concrete unrecognized values. -/
theorem forward_compatible_parsing_witness :
    deserializePublicKey [("kty", .str "FUTURE")] = .ok .UnknownOrPrivate
    ∧ deserializeKeyUse (.str "future-use") = .ok .Unknown
    ∧ deserializeKeyOperation (.str "future-op") = .ok .Unknown
    ∧ deserializeEc [("crv", .str "X-CURVE"), ("x", .str "AA"),
        ("y", .str "AA")] = .ok { crv := "X-CURVE", x := [0], y := [0] } :=
  ⟨(forward_compatible_parsing [("kty", .str "FUTURE")] "FUTURE").1 rfl
      (by decide) (by decide) (by decide),
   (forward_compatible_parsing [] "future-use").2.1 (by decide) (by decide),
   (forward_compatible_parsing [] "future-op").2.2.1 (by decide),
   (forward_compatible_parsing [("crv", .str "X-CURVE"), ("x", .str "AA"),
      ("y", .str "AA")] "X-CURVE").2.2.2 "AA" "AA" [0] [0] rfl rfl
      (by decide) rfl (by decide)⟩

/-- C4 counterexample to the claim as stated: two EC entries that differ
only in their unrecognized curve names both parse successfully, but to
*different* values that each preserve the raw curve text — so an
unrecognized `crv` does not parse "to an opaque/Unknown marker" (which
would discard the raw value, as the spec's own design note describes). -/
theorem crv_is_not_opaque :
    deserializePublicJwk (.obj [("kty", .str "EC"),
        ("crv", .str "brainpoolP256r1"), ("x", .str "AA"), ("y", .str "AA")])
      = .ok { key := .Ec { crv := "brainpoolP256r1", x := [0], y := [0] },
              key_use := none, key_operations := none, algorithm := none,
              kid := none }
    ∧ deserializePublicJwk (.obj [("kty", .str "EC"),
        ("crv", .str "someFutureCurve"), ("x", .str "AA"), ("y", .str "AA")])
      = .ok { key := .Ec { crv := "someFutureCurve", x := [0], y := [0] },
              key_use := none, key_operations := none, algorithm := none,
              kid := none }
    ∧ ({ key := .Ec { crv := "brainpoolP256r1", x := [0], y := [0] },
         key_use := none, key_operations := none, algorithm := none,
         kid := none } : PublicJwk)
      ≠ { key := .Ec { crv := "someFutureCurve", x := [0], y := [0] },
          key_use := none, key_operations := none, algorithm := none,
          kid := none } := by
  refine ⟨by decide, by decide, by decide⟩

/-! ### Base64url round trip -/

/-- The two alphabet tables are inverse on 6-bit values. -/
theorem b64urlVal_b64urlChar {v : Nat} (h : v < 64) :
    b64urlVal (b64urlChar v) = some v := by
  have aux : ∀ w : Fin 64, b64urlVal (b64urlChar w.val) = some w.val := by
    decide
  exact aux ⟨v, h⟩

/-- Canonical base64url decoding is a left inverse of encoding on byte
lists. -/
theorem b64url_roundtrip : ∀ (bs : List Nat), (∀ b ∈ bs, b < 256) →
    b64decodeList b64urlVal (b64urlEncodeList bs) = some bs
  | [], _ => rfl
  | [b1], h => by
      have h1 : b1 < 256 := h b1 (by simp)
      simp only [b64urlEncodeList, b64decodeList,
        b64urlVal_b64urlChar (show b1 / 4 < 64 by omega),
        b64urlVal_b64urlChar (show b1 % 4 * 16 < 64 by omega),
        Option.bind, bind]
      rw [if_pos (by omega)]
      simp only [Option.some.injEq, List.cons.injEq, and_true]
      omega
  | [b1, b2], h => by
      have h1 : b1 < 256 := h b1 (by simp)
      have h2 : b2 < 256 := h b2 (by simp)
      simp only [b64urlEncodeList, b64decodeList,
        b64urlVal_b64urlChar (show b1 / 4 < 64 by omega),
        b64urlVal_b64urlChar (show b1 % 4 * 16 + b2 / 16 < 64 by omega),
        b64urlVal_b64urlChar (show b2 % 16 * 4 < 64 by omega),
        Option.bind, bind]
      rw [if_pos (by omega)]
      simp only [Option.some.injEq, List.cons.injEq, and_true]
      constructor <;> omega
  | b1 :: b2 :: b3 :: rest, h => by
      have h1 : b1 < 256 := h b1 (by simp)
      have h2 : b2 < 256 := h b2 (by simp)
      have h3 : b3 < 256 := h b3 (by simp)
      have ih := b64url_roundtrip rest (fun b hb => h b (by simp [hb]))
      simp only [b64urlEncodeList, b64decodeList,
        b64urlVal_b64urlChar (show b1 / 4 < 64 by omega),
        b64urlVal_b64urlChar (show b1 % 4 * 16 + b2 / 16 < 64 by omega),
        b64urlVal_b64urlChar (show b2 % 16 * 4 + b3 / 64 < 64 by omega),
        b64urlVal_b64urlChar (show b3 % 64 < 64 by omega),
        Option.bind, bind, ih]
      simp only [Option.some.injEq, List.cons.injEq, and_true]
      refine ⟨by omega, by omega, by omega⟩

/-- Stripping the sign byte is idempotent. -/
theorem stripSignByte_idem (bs : List Nat) :
    stripSignByte (stripSignByte bs) = stripSignByte bs := by
  match bs with
  | [] => rfl
  | [0] => rfl
  | [n + 1] => rfl
  | 0 :: b :: rest =>
      simp only [stripSignByte]
      by_cases hb : 0x80 ≤ b
      · rw [if_pos hb]
        match b, hb with
        | n + 1, _ => rfl
      · rw [if_neg hb]
        simp only [stripSignByte]
        rw [if_neg hb]
  | (n + 1) :: b :: rest => rfl

/-- C7 (the `base64url_uint` codec, modelled from the spec since
`serde_utils.rs` is not among the sources): encoding strips a single
leading zero byte that serves only to disambiguate sign (the next byte has
its high bit set) and base64url-encodes the rest without padding; decoding
accepts both the form with the leading zero byte and the form without it,
and both decode to the same integer value. -/
theorem b64uint_strip_and_accept_both_forms (b : Nat) (rest : List Nat)
    (hb : 0x80 ≤ b) (hb2 : b < 256) (hrest : ∀ x ∈ rest, x < 256) :
    serB64Uint (0 :: b :: rest) = .str (b64urlEncode (b :: rest))
    ∧ deB64Uint (.str (b64urlEncode (0 :: b :: rest))) = .ok (b :: rest)
    ∧ deB64Uint (.str (b64urlEncode (b :: rest))) = .ok (b :: rest) := by
  have hall : ∀ x ∈ (0 :: b :: rest), x < 256 := by
    intro x hx
    simp only [List.mem_cons] at hx
    rcases hx with rfl | rfl | hx
    · omega
    · omega
    · exact hrest x hx
  have hbr : ∀ x ∈ (b :: rest), x < 256 := by
    intro x hx
    simp only [List.mem_cons] at hx
    rcases hx with rfl | hx
    · omega
    · exact hrest x hx
  have hstrip : stripSignByte (0 :: b :: rest) = b :: rest := by
    simp only [stripSignByte]
    rw [if_pos hb]
  have hstrip2 : stripSignByte (b :: rest) = b :: rest := by
    match b, hb with
    | n + 1, _ =>
        match rest with
        | [] => rfl
        | r :: rs => rfl
  refine ⟨?_, ?_, ?_⟩
  · simp only [serB64Uint, hstrip]
  · simp only [deB64Uint, b64urlDecode, b64urlEncode,
      b64url_roundtrip (0 :: b :: rest) hall, hstrip]
  · simp only [deB64Uint, b64urlDecode, b64urlEncode,
      b64url_roundtrip (b :: rest) hbr, hstrip2]

/-- Witness for C7 at the concrete integer `0x0080`: the sign-padded form
`[0x00, 0x80]` and the minimal form `[0x80]` encode and decode
consistently. -/
theorem b64uint_strip_and_accept_both_forms_witness :
    serB64Uint [0, 0x80] = .str (b64urlEncode [0x80])
    ∧ deB64Uint (.str (b64urlEncode [0, 0x80])) = .ok [0x80]
    ∧ deB64Uint (.str (b64urlEncode [0x80])) = .ok [0x80] :=
  b64uint_strip_and_accept_both_forms 0x80 [] (by decide) (by decide)
    (by intro x hx; cases hx)

/-- Mapping over an `Except` preserves whether it is an error. -/
theorem isErr_map (f : α → β) (x : Except ε α) :
    isErr (x.map f) = isErr x := by
  cases x <;> rfl

/-- C6 (amended): over well-formed documents, an entry with a recognized
key type that is missing one of its required fields fails to parse — RSA
needs `n` and `e`, EC needs `crv`, `x` and `y`, OKP needs `crv` and `x`.
(Parsing can also fail on a present field of the wrong type or with
malformed base64url content, see the counterexample; parsing is a total
function into a success-or-error outcome, so malformed input is a reported
failure, never a crash.) -/
theorem missing_required_field_fails (fields : List (String × Json)) :
    (getField fields "kty" = some (.str "RSA") →
      getField fields "n" = none ∨ getField fields "e" = none →
      isErr (deserializePublicKey fields) = true)
    ∧ (getField fields "kty" = some (.str "EC") →
      getField fields "crv" = none ∨ getField fields "x" = none ∨
        getField fields "y" = none →
      isErr (deserializePublicKey fields) = true)
    ∧ (getField fields "kty" = some (.str "OKP") →
      getField fields "crv" = none ∨ getField fields "x" = none →
      isErr (deserializePublicKey fields) = true) := by
  refine ⟨?_, ?_, ?_⟩
  · intro hk hmiss
    simp only [deserializePublicKey, hk, if_true]
    rw [isErr_map]
    rcases hmiss with hn | he
    · simp [deserializeRsa, requireB64Uint, hn, Bind.bind, Except.bind, isErr]
    · cases hn : requireB64Uint fields "n" with
      | error e => simp [deserializeRsa, hn, Bind.bind, Except.bind, isErr]
      | ok n =>
          simp only [deserializeRsa, Bind.bind, Except.bind, hn]
          simp [requireB64Uint, he, isErr]
  · intro hk hmiss
    simp only [deserializePublicKey, hk, if_true]
    rw [if_neg (by decide), isErr_map]
    rcases hmiss with hcrv | hx | hy
    · simp [deserializeEc, requireStr, hcrv, Bind.bind, Except.bind, isErr]
    · cases hc : requireStr fields "crv" with
      | error e => simp [deserializeEc, hc, Bind.bind, Except.bind, isErr]
      | ok crv =>
          simp only [deserializeEc, Bind.bind, Except.bind, hc]
          simp [requireB64, hx, isErr]
    · cases hc : requireStr fields "crv" with
      | error e => simp [deserializeEc, hc, Bind.bind, Except.bind, isErr]
      | ok crv =>
          cases hxr : requireB64 fields "x" with
          | error e =>
              simp only [deserializeEc, Bind.bind, Except.bind, hc, hxr]
              rfl
          | ok x =>
              simp only [deserializeEc, Bind.bind, Except.bind, hc, hxr]
              simp [requireB64, hy, isErr]
  · intro hk hmiss
    simp only [deserializePublicKey, hk, if_true]
    rw [if_neg (by decide), if_neg (by decide), isErr_map]
    rcases hmiss with hcrv | hx
    · simp [deserializeOkp, requireStr, hcrv, Bind.bind, Except.bind, isErr]
    · cases hc : requireStr fields "crv" with
      | error e => simp [deserializeOkp, hc, Bind.bind, Except.bind, isErr]
      | ok crv =>
          simp only [deserializeOkp, Bind.bind, Except.bind, hc]
          simp [requireB64, hx, isErr]

/-- Witness for C6's amended statement: one concrete missing-field entry
per recognized key type. -/
theorem missing_required_field_fails_witness :
    isErr (deserializePublicKey
      [("kty", .str "RSA"), ("e", .str "AQAB")]) = true
    ∧ isErr (deserializePublicKey
      [("kty", .str "EC"), ("crv", .str "P-256"), ("x", .str "AA")]) = true
    ∧ isErr (deserializePublicKey
      [("kty", .str "OKP"), ("crv", .str "Ed25519")]) = true :=
  ⟨(missing_required_field_fails
      [("kty", .str "RSA"), ("e", .str "AQAB")]).1 rfl (Or.inl rfl),
   (missing_required_field_fails
      [("kty", .str "EC"), ("crv", .str "P-256"), ("x", .str "AA")]).2.1 rfl
      (Or.inr (Or.inr rfl)),
   (missing_required_field_fails
      [("kty", .str "OKP"), ("crv", .str "Ed25519")]).2.2 rfl (Or.inr rfl)⟩

/-- C6 counterexample to the claim's "exactly when": a well-formed document
whose recognized RSA entry has every required field present (`n` and `e`
both appear as strings), yet parsing fails, because the `n` value `"!"` is
not valid base64url.  So parse failure is not confined to non-well-formed
JSON plus missing required fields. -/
theorem parse_fails_with_all_required_fields_present :
    isErr (deserializePublicJwks (.obj [("keys", .arr [.obj
      [("kty", .str "RSA"), ("n", .str "!"), ("e", .str "AQAB")]])])) = true
    ∧ getField [("kty", .str "RSA"), ("n", .str "!"), ("e", .str "AQAB")] "n"
        = some (.str "!")
    ∧ getField [("kty", .str "RSA"), ("n", .str "!"), ("e", .str "AQAB")] "e"
        = some (.str "AQAB") := by
  refine ⟨rfl, rfl, rfl⟩

/-! ### Round trip of the JWK codec (C5) -/

/-- A field found in the prefix of an association list is found in the
whole list. -/
theorem getField_append_left {l1 : List (String × Json)} {name : String}
    {v : Json} (h : getField l1 name = some v) (l2 : List (String × Json)) :
    getField (l1 ++ l2) name = some v := by
  induction l1 with
  | nil => cases h
  | cons p rest ih =>
      simp only [getField, List.cons_append] at h ⊢
      by_cases hp : p.1 = name
      · rwa [if_pos hp] at h ⊢
      · rw [if_neg hp] at h ⊢
        exact ih h

theorem getField_append_right {l1 : List (String × Json)} {name : String}
    (h : getField l1 name = none) (l2 : List (String × Json)) :
    getField (l1 ++ l2) name = getField l2 name := by
  induction l1 with
  | nil => rfl
  | cons p rest ih =>
      simp only [getField, List.cons_append] at h ⊢
      by_cases hp : p.1 = name
      · rw [if_pos hp] at h; cases h
      · rw [if_neg hp] at h ⊢
        exact ih h

theorem getField_none_of_names {l : List (String × Json)} {name : String}
    (h : ∀ p ∈ l, p.1 ≠ name) : getField l name = none := by
  induction l with
  | nil => rfl
  | cons p rest ih =>
      simp only [getField]
      rw [if_neg (h p (List.mem_cons_self p rest))]
      exact ih (fun q hq => h q (List.mem_cons_of_mem p hq))

theorem deserializeOptField_skip {l1 : List (String × Json)} {name : String}
    (h : getField l1 name = none) (l2 : List (String × Json))
    (p : Json → Except String α) :
    deserializeOptField (l1 ++ l2) name p = deserializeOptField l2 name p := by
  unfold deserializeOptField
  rw [getField_append_right h l2]

theorem deserializeOptField_here (seg rest : List (String × Json))
    (name : String) (p : Json → Except String α)
    (hother : ∀ q ∈ rest, q.1 ≠ name) :
    deserializeOptField (seg ++ rest) name p = deserializeOptField seg name p := by
  unfold deserializeOptField
  cases hg : getField seg name with
  | some v => rw [getField_append_left hg rest]
  | none => rw [getField_append_right hg rest, getField_none_of_names hother]

theorem serializeKeyOperation_roundtrip (op : KeyOperation)
    (h : op ≠ .Unknown) :
    ∃ j, serializeKeyOperation op = .ok j
      ∧ deserializeKeyOperation j = .ok op := by
  cases op
  case Unknown => exact absurd rfl h
  all_goals exact ⟨_, rfl, by decide⟩

theorem mapM_cons_ok {f : α → Except ε β} {a : α} {l : List α} {b : β}
    {bs : List β} (ha : f a = .ok b) (hl : l.mapM f = .ok bs) :
    (a :: l).mapM f = .ok (b :: bs) := by
  rw [List.mapM_cons, ha, hl]
  rfl

theorem keyOps_roundtrip (ops : List KeyOperation) (h : .Unknown ∉ ops) :
    ∃ js, ops.mapM serializeKeyOperation = .ok js
      ∧ js.mapM deserializeKeyOperation = .ok ops := by
  induction ops with
  | nil => exact ⟨[], rfl, rfl⟩
  | cons op rest ih =>
      simp only [List.mem_cons, not_or] at h
      obtain ⟨j, hj1, hj2⟩ :=
        serializeKeyOperation_roundtrip op (fun e => h.1 e.symm)
      obtain ⟨js, hjs1, hjs2⟩ := ih h.2
      exact ⟨j :: js, mapM_cons_ok hj1 hjs1, mapM_cons_ok hj2 hjs2⟩

theorem serializeUseField_spec (key_use : Option KeyUse)
    (h : key_use ≠ some .Unknown) :
    ∃ useF, serializeUseField key_use = .ok useF
      ∧ (∀ p ∈ useF, p.1 = "use")
      ∧ deserializeOptField useF "use" deserializeKeyUse = .ok key_use := by
  cases key_use with
  | none => exact ⟨[], rfl, by simp, rfl⟩
  | some u =>
      cases u with
      | Sign => exact ⟨[("use", .str "sig")], rfl, by simp, by decide⟩
      | Encrypt => exact ⟨[("use", .str "enc")], rfl, by simp, by decide⟩
      | Unknown => exact absurd rfl h

theorem serializeKeyOpsField_spec (key_operations : Option (List KeyOperation))
    (h : ∀ ops, key_operations = some ops → .Unknown ∉ ops) :
    ∃ opsF, serializeKeyOpsField key_operations = .ok opsF
      ∧ (∀ p ∈ opsF, p.1 = "key_ops")
      ∧ deserializeOptField opsF "key_ops" deserializeKeyOps
          = .ok key_operations := by
  cases key_operations with
  | none => exact ⟨[], rfl, by simp, rfl⟩
  | some ops =>
      obtain ⟨js, hjs1, hjs2⟩ := keyOps_roundtrip ops (h ops rfl)
      refine ⟨[("key_ops", .arr js)], ?_, by simp, ?_⟩
      · simp only [serializeKeyOpsField]
        rw [hjs1]
        rfl
      · have hstep : deserializeOptField [("key_ops", Json.arr js)] "key_ops"
            deserializeKeyOps = (js.mapM deserializeKeyOperation).map some :=
          rfl
        rw [hstep, hjs2]
        rfl

theorem serializeAlgField_spec (algorithm : Option String) :
    (∀ p ∈ serializeAlgField algorithm, p.1 = "alg")
    ∧ deserializeOptField (serializeAlgField algorithm) "alg"
        (deserializeStrField "alg") = .ok algorithm := by
  cases algorithm with
  | none => exact ⟨by simp [serializeAlgField], rfl⟩
  | some a =>
      refine ⟨by simp [serializeAlgField], ?_⟩
      simp [serializeAlgField, deserializeOptField, getField,
        deserializeStrField, Except.map]

theorem serializeKidField_spec (kid : Option String) :
    (∀ p ∈ serializeKidField kid, p.1 = "kid")
    ∧ deserializeOptField (serializeKidField kid) "kid"
        (deserializeStrField "kid") = .ok kid := by
  cases kid with
  | none => exact ⟨by simp [serializeKidField], rfl⟩
  | some k =>
      refine ⟨by simp [serializeKidField], ?_⟩
      simp [serializeKidField, deserializeOptField, getField,
        deserializeStrField, Except.map]

theorem deB64_serB64 {bs : List Nat} (h : ∀ b ∈ bs, b < 256) :
    deB64 (serB64 bs) = .ok bs := by
  simp only [serB64, deB64, b64urlDecode, b64urlEncode]
  simp [b64url_roundtrip bs h]

theorem deB64Uint_serB64Uint {bs : List Nat} (h : ∀ b ∈ bs, b < 256)
    (hs : stripSignByte bs = bs) : deB64Uint (serB64Uint bs) = .ok bs := by
  simp only [serB64Uint, hs, deB64Uint, b64urlDecode, b64urlEncode]
  simp [b64url_roundtrip bs h, hs]

/-- Well-formedness of key material for the round trip: bytes are in range
and the RSA integer fields are already in minimal (sign-byte-free) form. -/
def GoodKey : PublicKey → Prop
  | .Rsa k => (∀ b ∈ k.n, b < 256) ∧ (∀ b ∈ k.e, b < 256)
      ∧ stripSignByte k.n = k.n ∧ stripSignByte k.e = k.e
  | .Ec k => (∀ b ∈ k.x, b < 256) ∧ (∀ b ∈ k.y, b < 256)
  | .Okp k => ∀ b ∈ k.x, b < 256
  | .UnknownOrPrivate => False

/-- Well-formedness of an entry for the round trip: good key material and
no `Unknown` enumeration values. -/
def GoodJwk (jwk : PublicJwk) : Prop :=
  GoodKey jwk.key ∧ jwk.key_use ≠ some .Unknown
    ∧ ∀ ops, jwk.key_operations = some ops → .Unknown ∉ ops

theorem serializePublicKeyFields_spec (key : PublicKey) (h : GoodKey key) :
    ∃ kf, serializePublicKeyFields key = .ok kf
      ∧ (∀ p ∈ kf, p.1 ∈ (["kty", "crv", "n", "e", "x", "y"] : List String))
      ∧ deserializePublicKey kf = .ok key := by
  cases key with
  | Rsa k =>
      obtain ⟨hn, he, hsn, hse⟩ := h
      refine ⟨_, rfl, by simp, ?_⟩
      have h1 := deB64Uint_serB64Uint hn hsn
      have h2 := deB64Uint_serB64Uint he hse
      simp [deserializePublicKey, getField, deserializeRsa, requireB64Uint,
        h1, h2, Bind.bind, Except.bind]
      rfl
  | Ec k =>
      obtain ⟨hx, hy⟩ := h
      refine ⟨_, rfl, by simp, ?_⟩
      have h1 := deB64_serB64 hx
      have h2 := deB64_serB64 hy
      simp [deserializePublicKey, getField, deserializeEc, requireStr,
        requireB64, h1, h2, Bind.bind, Except.bind]
      rfl
  | Okp k =>
      refine ⟨_, rfl, by simp, ?_⟩
      have h1 := deB64_serB64 h
      simp [deserializePublicKey, getField, deserializeOkp, requireStr,
        requireB64, h1, Bind.bind, Except.bind]
      rfl
  | UnknownOrPrivate => exact h.elim

theorem names_ne {l : List (String × Json)} {a b : String}
    (hl : ∀ p ∈ l, p.1 = a) (hab : a ≠ b) : ∀ q ∈ l, q.1 ≠ b :=
  fun q hq => by rw [hl q hq]; exact hab

theorem roundtrip_publicJwk (jwk : PublicJwk) (hg : GoodJwk jwk) :
    serializePublicJwk jwk >>= deserializePublicJwk = .ok jwk := by
  obtain ⟨key, key_use, key_operations, algorithm, kid⟩ := jwk
  obtain ⟨hkey, huse, hops⟩ := hg
  obtain ⟨kf, hkf, hknames, hdekey⟩ := serializePublicKeyFields_spec key hkey
  obtain ⟨useF, huseF, husenames, husede⟩ :=
    serializeUseField_spec key_use huse
  obtain ⟨opsF, hopsF, hopsnames, hopsde⟩ :=
    serializeKeyOpsField_spec key_operations hops
  obtain ⟨halgnames, halgde⟩ := serializeAlgField_spec algorithm
  obtain ⟨hkidnames, hkidde⟩ := serializeKidField_spec kid
  have hkfne : ∀ b ∈ (["use", "key_ops", "alg", "kid"] : List String),
      ∀ p ∈ kf, p.1 ≠ b := by
    intro b hb p hp
    have h6 := hknames p hp
    simp only [List.mem_cons, List.not_mem_nil, or_false] at h6 hb
    rcases h6 with h | h | h | h | h | h <;> rw [h] <;>
      rcases hb with rfl | rfl | rfl | rfl <;> decide
  have hser : serializePublicJwk ⟨key, key_use, key_operations, algorithm,
      kid⟩ = .ok (.obj (kf ++ (useF ++ (opsF ++ (serializeAlgField algorithm
        ++ serializeKidField kid))))) := by
    simp only [serializePublicJwk, hkf, huseF, hopsF, Bind.bind, Except.bind,
      List.append_assoc]
  rw [hser]
  show deserializePublicJwk (.obj (kf ++ (useF ++ (opsF ++
    (serializeAlgField algorithm ++ serializeKidField kid)))))
    = .ok ⟨key, key_use, key_operations, algorithm, kid⟩
  have hu : deserializeOptField (kf ++ (useF ++ (opsF ++
      (serializeAlgField algorithm ++ serializeKidField kid)))) "use"
      deserializeKeyUse = .ok key_use := by
    rw [deserializeOptField_skip
      (getField_none_of_names (hkfne "use" (by decide))) _ _]
    rw [deserializeOptField_here useF _ "use" deserializeKeyUse ?_]
    · exact husede
    · intro q hq
      rcases List.mem_append.mp hq with h | h
      · exact names_ne hopsnames (by decide) q h
      · rcases List.mem_append.mp h with h2 | h2
        · exact names_ne halgnames (by decide) q h2
        · exact names_ne hkidnames (by decide) q h2
  have hko : deserializeOptField (kf ++ (useF ++ (opsF ++
      (serializeAlgField algorithm ++ serializeKidField kid)))) "key_ops"
      deserializeKeyOps = .ok key_operations := by
    rw [deserializeOptField_skip
      (getField_none_of_names (hkfne "key_ops" (by decide))) _ _]
    rw [deserializeOptField_skip
      (getField_none_of_names (names_ne husenames (by decide))) _ _]
    rw [deserializeOptField_here opsF _ "key_ops" deserializeKeyOps ?_]
    · exact hopsde
    · intro q hq
      rcases List.mem_append.mp hq with h | h
      · exact names_ne halgnames (by decide) q h
      · exact names_ne hkidnames (by decide) q h
  have hal : deserializeOptField (kf ++ (useF ++ (opsF ++
      (serializeAlgField algorithm ++ serializeKidField kid)))) "alg"
      (deserializeStrField "alg") = .ok algorithm := by
    rw [deserializeOptField_skip
      (getField_none_of_names (hkfne "alg" (by decide))) _ _]
    rw [deserializeOptField_skip
      (getField_none_of_names (names_ne husenames (by decide))) _ _]
    rw [deserializeOptField_skip
      (getField_none_of_names (names_ne hopsnames (by decide))) _ _]
    rw [deserializeOptField_here (serializeAlgField algorithm) _ "alg"
      (deserializeStrField "alg") (names_ne hkidnames (by decide))]
    exact halgde
  have hki : deserializeOptField (kf ++ (useF ++ (opsF ++
      (serializeAlgField algorithm ++ serializeKidField kid)))) "kid"
      (deserializeStrField "kid") = .ok kid := by
    rw [deserializeOptField_skip
      (getField_none_of_names (hkfne "kid" (by decide))) _ _]
    rw [deserializeOptField_skip
      (getField_none_of_names (names_ne husenames (by decide))) _ _]
    rw [deserializeOptField_skip
      (getField_none_of_names (names_ne hopsnames (by decide))) _ _]
    rw [deserializeOptField_skip
      (getField_none_of_names (names_ne halgnames (by decide))) _ _]
    exact hkidde
  have hfilter : (kf ++ (useF ++ (opsF ++ (serializeAlgField algorithm
      ++ serializeKidField kid)))).filter
      (fun p => p.1 ∉ (["use", "key_ops", "alg", "kid"] : List String))
      = kf := by
    simp only [List.filter_append]
    have e1 : kf.filter
        (fun p => p.1 ∉ (["use", "key_ops", "alg", "kid"] : List String))
        = kf := by
      rw [List.filter_eq_self]
      intro p hp
      have h6 := hknames p hp
      simp only [List.mem_cons, List.not_mem_nil, or_false] at h6
      rcases h6 with h | h | h | h | h | h <;> rw [h] <;> decide
    have enil : ∀ (l : List (String × Json)) (a : String),
        (∀ p ∈ l, p.1 = a) →
        a ∈ (["use", "key_ops", "alg", "kid"] : List String) →
        l.filter (fun p =>
          p.1 ∉ (["use", "key_ops", "alg", "kid"] : List String)) = [] := by
      intro l a hl ha
      rw [List.filter_eq_nil_iff]
      intro p hp
      rw [hl p hp]
      simp only [decide_not]
      simp [ha]
    rw [e1, enil useF "use" husenames (by decide),
      enil opsF "key_ops" hopsnames (by decide),
      enil (serializeAlgField algorithm) "alg" halgnames (by decide),
      enil (serializeKidField kid) "kid" hkidnames (by decide)]
    simp
  simp only [deserializePublicJwk, hu, hko, hal, hki, Bind.bind, Except.bind,
    hfilter, hdekey]

theorem mapM_roundtrip_keys : ∀ (keys : List PublicJwk),
    (∀ jwk ∈ keys, GoodJwk jwk) →
    ∃ js, keys.mapM serializePublicJwk = .ok js
      ∧ js.mapM deserializePublicJwk = .ok keys
  | [], _ => ⟨[], rfl, rfl⟩
  | k :: rest, h => by
      have hk := roundtrip_publicJwk k (h k (List.mem_cons_self k rest))
      cases hs : serializePublicJwk k with
      | error e => rw [hs] at hk; cases hk
      | ok j =>
          rw [hs] at hk
          have hk' : deserializePublicJwk j = .ok k := hk
          obtain ⟨js, h1, h2⟩ := mapM_roundtrip_keys rest
            (fun q hq => h q (List.mem_cons_of_mem k hq))
          exact ⟨j :: js, mapM_cons_ok hs h1, mapM_cons_ok hk' h2⟩

/-- C5 (amended): for every key set whose entries carry known key material
in minimal integer form and no `Unknown` enumeration values, encoding to
the JSON wire format and decoding back yields a structurally equal value,
with the order of entries preserved.  (The builders construct exactly these
record values; the restrictions are forced by the counterexample: an
`Unknown` enumeration value cannot be encoded at all, and a non-minimal RSA
integer field comes back with its sign byte stripped.) -/
theorem roundtrip_publicJwks (jwks : PublicJwks)
    (h : ∀ jwk ∈ jwks.keys, GoodJwk jwk) :
    serializePublicJwks jwks >>= deserializePublicJwks = .ok jwks := by
  obtain ⟨keys⟩ := jwks
  obtain ⟨js, h1, h2⟩ := mapM_roundtrip_keys keys h
  have hser : serializePublicJwks ⟨keys⟩
      = .ok (.obj [("keys", .arr js)]) := by
    simp only [serializePublicJwks]
    rw [h1]
    rfl
  rw [hser]
  show deserializePublicJwks (.obj [("keys", .arr js)]) = .ok ⟨keys⟩
  have hstep : deserializePublicJwks (.obj [("keys", .arr js)])
      = (js.mapM deserializePublicJwk).map PublicJwks.mk := rfl
  rw [hstep, h2]
  rfl

/-- Witness for C5's amended statement on a concrete two-entry key set
(an EC entry with `use`/`kid` and an RSA entry with `key_ops`, `alg` and
`kid`), exercising all optional-field shapes. -/
theorem roundtrip_publicJwks_witness :
    serializePublicJwks ⟨[
      ⟨.Ec ⟨"P-256", [1, 2, 3], [4, 5]⟩, some .Encrypt, none, none, some "1"⟩,
      ⟨.Rsa ⟨[210, 15], [1, 0, 1]⟩, none, some [.Sign, .Verify],
        some "RS256", some "2011-04-29"⟩]⟩
      >>= deserializePublicJwks
    = .ok ⟨[
      ⟨.Ec ⟨"P-256", [1, 2, 3], [4, 5]⟩, some .Encrypt, none, none, some "1"⟩,
      ⟨.Rsa ⟨[210, 15], [1, 0, 1]⟩, none, some [.Sign, .Verify],
        some "RS256", some "2011-04-29"⟩]⟩ := by
  apply roundtrip_publicJwks
  intro jwk hmem
  simp only [List.mem_cons, List.not_mem_nil, or_false] at hmem
  rcases hmem with rfl | rfl
  · exact ⟨⟨by decide, by decide⟩, by decide, fun ops h => by cases h⟩
  · refine ⟨⟨by decide, by decide, rfl, rfl⟩, by decide, ?_⟩
    intro ops h
    cases h
    decide

/-- C5 counterexample to the claim as stated: a builder-expressible entry
whose `use` is the `Unknown` variant cannot be encoded at all, and an RSA
entry built with a sign-padded modulus `[0x00, 0x80]` round-trips to the
minimal form `[0x80]`, not to a value structurally equal to the
original. -/
theorem roundtrip_needs_known_and_minimal :
    isErr (serializePublicJwk
      ⟨.Rsa ⟨[1], [1]⟩, some .Unknown, none, none, none⟩) = true
    ∧ (serializePublicJwk ⟨.Rsa ⟨[0, 0x80], [1, 0, 1]⟩, none, none, none,
        none⟩ >>= deserializePublicJwk)
      = .ok ⟨.Rsa ⟨[0x80], [1, 0, 1]⟩, none, none, none, none⟩
    ∧ (serializePublicJwk ⟨.Rsa ⟨[0, 0x80], [1, 0, 1]⟩, none, none, none,
        none⟩ >>= deserializePublicJwk)
      ≠ .ok ⟨.Rsa ⟨[0, 0x80], [1, 0, 1]⟩, none, none, none, none⟩ := by
  refine ⟨by decide, by decide, by decide⟩
